import Mathlib

/-
  Verification of the visual-fixer server's model-fallback orchestration layer.

  The definitions below are a shallow embedding of the JavaScript source:
  - JsValue models JSON-shaped JavaScript runtime values (plus undefined).
  - Member access follows JavaScript semantics: plain access on null/undefined
    throws (modelled with Except), optional chaining yields undefined.
  - extractImageFromResponse embeds the response extractor of src/server.js
    (lines 48-79) and src/api/replace-text.js (lines 21-47), which are textually
    identical.
  - runLoop embeds the sequential model-fallback loop shared by the
    detect-text / edit-image / replace-text handlers.
-/

set_option linter.unusedVariables false

namespace VisualFixer

/-- Model of a JSON-shaped JavaScript value (including undefined). Non-integer
numbers are kept as exact decimals mantissa times ten to the exponent (numf m
e); the rounding a JavaScript double would apply is not modelled, and no
theorem below depends on a non-integer numeric value. -/
inductive JsValue : Type where
  | undef : JsValue
  | null : JsValue
  | bool : Bool → JsValue
  | num : Int → JsValue
  | numf : Int → Int → JsValue
  | str : String → JsValue
  | arr : List JsValue → JsValue
  | obj : List (String × JsValue) → JsValue

/-- JavaScript nullish test: null and undefined. -/
def nullish : JsValue → Bool
  | JsValue.undef => true
  | JsValue.null => true
  | _ => false

/-- JavaScript truthiness: undefined, null, false, 0 and the empty string are falsy. -/
def truthy : JsValue → Bool
  | JsValue.undef => false
  | JsValue.null => false
  | JsValue.bool b => b
  | JsValue.num n => n != 0
  | JsValue.numf m _ => m != 0
  | JsValue.str s => s != ""
  | JsValue.arr _ => true
  | JsValue.obj _ => true

/-- First-match field lookup in an object's field list. -/
def lookupField : List (String × JsValue) → String → JsValue
  | [], _ => JsValue.undef
  | (k, v) :: rest, f => if k = f then v else lookupField rest f

/-- Property read on a non-nullish value: objects look up the field, arrays and
strings expose length, everything else yields undefined. -/
def jsGet : JsValue → String → JsValue
  | JsValue.obj fields, f => lookupField fields f
  | JsValue.arr items, f => if f = "length" then JsValue.num items.length else JsValue.undef
  | JsValue.str s, f => if f = "length" then JsValue.num s.length else JsValue.undef
  | _, _ => JsValue.undef

/-- Numeric index read on a non-nullish value (JavaScript v[i] with i a natural). -/
def jsIndex : JsValue → Nat → JsValue
  | JsValue.arr items, i => (items.get? i).getD JsValue.undef
  | JsValue.str s, i => ((s.data.get? i).map (fun c => JsValue.str (String.mk [c]))).getD JsValue.undef
  | JsValue.obj fields, i => lookupField fields (toString i)
  | _, _ => JsValue.undef

/-- Optional-chained property read (v?.f): undefined when the base is nullish. -/
def jsGetOpt (v : JsValue) (f : String) : JsValue :=
  if nullish v then JsValue.undef else jsGet v f

/-- Optional-chained index read (v?.[i]). -/
def jsIndexOpt (v : JsValue) (i : Nat) : JsValue :=
  if nullish v then JsValue.undef else jsIndex v i

/-- Plain property read (v.f): throws a TypeError when the base is nullish. -/
def jsGetE (v : JsValue) (f : String) : Except Unit JsValue :=
  if nullish v then Except.error () else Except.ok (jsGet v f)

/-- Plain index read (v[i]): throws a TypeError when the base is nullish. -/
def jsIndexE (v : JsValue) (i : Nat) : Except Unit JsValue :=
  if nullish v then Except.error () else Except.ok (jsIndex v i)

/-- JavaScript numeric coercion for the values this code can compare
(Number(v)); values that coerce to NaN or are unmodelled yield none. -/
def jsToNum : JsValue → Option Int
  | JsValue.num n => some n
  | JsValue.null => some 0
  | JsValue.bool b => some (if b then 1 else 0)
  | JsValue.str s => if s = "" then some 0 else s.toInt?
  | _ => none

/-- JavaScript comparison v > 0 (false when the coercion is NaN); a decimal
mantissa times ten to the exponent is positive exactly when its mantissa is. -/
def jsGtZero (v : JsValue) : Bool :=
  match v with
  | JsValue.numf m _ => m > 0
  | _ =>
    match jsToNum v with
    | some n => n > 0
    | none => false

/-- Strict equality of a value against a string literal (v === "s"). -/
def isStr (v : JsValue) (s : String) : Bool :=
  match v with
  | JsValue.str t => t = s
  | _ => false

/-- Base64 alphabet characters accepted by the data-URI regex character class. -/
def isB64Char (c : Char) : Bool :=
  c.isAlphanum || c == '+' || c == '/' || c == '='

/-- The literal prefix matched by the png alternative of the data-URI regex. -/
def pngMarker : List Char := "data:image/png;base64,".data

/-- The literal prefix matched by the jpeg alternative of the data-URI regex. -/
def jpegMarker : List Char := "data:image/jpeg;base64,".data

/-- One anchored attempt of the regex at the start of cs; the base64 run is
greedy and must be non-empty. -/
def uriMatchAt (cs : List Char) : Option (List Char) :=
  if pngMarker.isPrefixOf cs then
    if ((cs.drop pngMarker.length).takeWhile isB64Char).isEmpty then none
    else some (pngMarker ++ (cs.drop pngMarker.length).takeWhile isB64Char)
  else if jpegMarker.isPrefixOf cs then
    if ((cs.drop jpegMarker.length).takeWhile isB64Char).isEmpty then none
    else some (jpegMarker ++ (cs.drop jpegMarker.length).takeWhile isB64Char)
  else none

/-- Leftmost-match scan of the data-URI regex over the text, as a regex engine
advances the start position one character at a time. -/
def uriScan : List Char → Option (List Char)
  | [] => none
  | c :: rest =>
    match uriMatchAt (c :: rest) with
    | some m => some m
    | none => uriScan rest

/-- text.match(the data-URI regex) returning the matched substring. -/
def matchDataUri (s : String) : Option String :=
  (uriScan s.data).map String.mk

/-- data?.choices?.[0]?.message -/
def messageOf (data : JsValue) : JsValue :=
  jsGetOpt (jsIndexOpt (jsGetOpt data "choices") 0) "message"

/-- The images branch of extractImageFromResponse (server.js lines 51-55), with
JavaScript's throwing semantics for the plain (non-optional) accesses
message.images, message.images.length, message.images[0], image.image_url.url
and image.url. -/
def imagesPartE (message : JsValue) : Except Unit (Option JsValue) :=
  if truthy (jsGetOpt message "images") then
    match jsGetE message "images" with
    | Except.error e => Except.error e
    | Except.ok mi =>
      match jsGetE mi "length" with
      | Except.error e => Except.error e
      | Except.ok len =>
        if jsGtZero len then
          match jsIndexE mi 0 with
          | Except.error e => Except.error e
          | Except.ok image =>
            if truthy (jsGetOpt (jsGetOpt image "image_url") "url") then
              match jsGetE image "image_url" with
              | Except.error e => Except.error e
              | Except.ok t =>
                match jsGetE t "url" with
                | Except.error e => Except.error e
                | Except.ok u => Except.ok (some u)
            else if truthy (jsGetOpt image "url") then
              match jsGetE image "url" with
              | Except.error e => Except.error e
              | Except.ok u => Except.ok (some u)
            else Except.ok none
        else Except.ok none
  else Except.ok none

mutual

/-- The for-loop over a content array (server.js lines 62-71), with throwing
semantics for the plain accesses item.type, item.data, item.image_url and
item.text (all guarded in the source by the truthiness of item). -/
def scanItemsE : List JsValue → Except Unit (Option JsValue)
  | [] => Except.ok none
  | item :: rest =>
    if truthy item then
      match jsGetE item "type" with
      | Except.error e => Except.error e
      | Except.ok ty =>
        if isStr ty "image" then
          match jsGetE item "data" with
          | Except.error e => Except.error e
          | Except.ok d =>
            if truthy d then Except.ok (some d) else scanItemsTailE ty item rest
        else scanItemsTailE ty item rest
    else scanItemsE rest

/-- Continuation of the loop body after the item.type === 'image' check. -/
def scanItemsTailE (ty item : JsValue) (rest : List JsValue) : Except Unit (Option JsValue) :=
  if isStr ty "image_url" then
    match jsGetE item "image_url" with
    | Except.error e => Except.error e
    | Except.ok iu =>
      if truthy (jsGetOpt iu "url") then
        match jsGetE item "image_url" with
        | Except.error e => Except.error e
        | Except.ok iu2 =>
          match jsGetE iu2 "url" with
          | Except.error e => Except.error e
          | Except.ok u => Except.ok (some u)
      else scanItemsTail2E ty item rest
  else scanItemsTail2E ty item rest

/-- Continuation of the loop body after the item.type === 'image_url' check. -/
def scanItemsTail2E (ty item : JsValue) (rest : List JsValue) : Except Unit (Option JsValue) :=
  if isStr ty "output_image" then
    match jsGetE item "image_url" with
    | Except.error e => Except.error e
    | Except.ok iu =>
      if truthy iu then Except.ok (some iu) else scanItemsTail3E item rest
  else scanItemsTail3E item rest

/-- Final part of the loop body: the typeof item.text === 'string' check. -/
def scanItemsTail3E (item : JsValue) (rest : List JsValue) : Except Unit (Option JsValue) :=
  match jsGetE item "text" with
  | Except.error e => Except.error e
  | Except.ok tx =>
    match tx with
    | JsValue.str s =>
      match matchDataUri s with
      | some m => Except.ok (some (JsValue.str m))
      | none => scanItemsE rest
    | _ => scanItemsE rest

end

/-- The content section of extractImageFromResponse (server.js lines 58-78):
the falsy-content early return, the array scan, then the plain-string scan. -/
def contentPartE (message : JsValue) : Except Unit (Option JsValue) :=
  if truthy (jsGetOpt message "content") then
    match jsGetOpt message "content" with
    | JsValue.arr items =>
      match scanItemsE items with
      | Except.error e => Except.error e
      | Except.ok (some u) => Except.ok (some u)
      | Except.ok none => Except.ok none
    | JsValue.str s => Except.ok ((matchDataUri s).map JsValue.str)
    | _ => Except.ok none
  else Except.ok none

/-- extractImageFromResponse (server.js lines 48-79): the images rule is tried
first; when it returns nothing the legacy content rules run on the same
response. The result is ok (some payload) for a returned value, ok none for a
returned null, and error for a thrown TypeError. -/
def extractImageFromResponse (data : JsValue) : Except Unit (Option JsValue) :=
  match imagesPartE (messageOf data) with
  | Except.error e => Except.error e
  | Except.ok (some u) => Except.ok (some u)
  | Except.ok none => contentPartE (messageOf data)

/-- Modelled from the spec's extraction policy, first rule: the dedicated
images list on the message envelope, taking the first entry's URL (either
image_url.url or url); yields none when the list is absent, empty, or its
first entry carries neither URL form. -/
def imagesRuleM (message : JsValue) : Option JsValue :=
  if truthy (jsGetOpt message "images") && jsGtZero (jsGet (jsGetOpt message "images") "length") then
    if truthy (jsGetOpt (jsGetOpt (jsIndex (jsGetOpt message "images") 0) "image_url") "url") then
      some (jsGet (jsGet (jsIndex (jsGetOpt message "images") 0) "image_url") "url")
    else if truthy (jsGetOpt (jsIndex (jsGetOpt message "images") 0) "url") then
      some (jsGet (jsIndex (jsGetOpt message "images") 0) "url")
    else none
  else none

/-- Total (non-throwing) version of the content-array scan: front-to-back,
first matching entry wins, checking the image / image_url / output_image tags
and then a text fragment holding a data-URI. -/
def scanItems : List JsValue → Option JsValue
  | [] => none
  | item :: rest =>
    if truthy item then
      if isStr (jsGet item "type") "image" && truthy (jsGet item "data") then
        some (jsGet item "data")
      else if isStr (jsGet item "type") "image_url" &&
          truthy (jsGetOpt (jsGet item "image_url") "url") then
        some (jsGet (jsGet item "image_url") "url")
      else if isStr (jsGet item "type") "output_image" && truthy (jsGet item "image_url") then
        some (jsGet item "image_url")
      else
        match jsGet item "text" with
        | JsValue.str s =>
          match matchDataUri s with
          | some m => some (JsValue.str m)
          | none => scanItems rest
        | _ => scanItems rest
    else scanItems rest

/-- Modelled from the spec's extraction policy, second rule: a structured
content list scanned for tagged entries. -/
def contentArrayRule (message : JsValue) : Option JsValue :=
  match jsGetOpt message "content" with
  | JsValue.arr items => scanItems items
  | _ => none

/-- Modelled from the spec's extraction policy, third rule: a plain string
content scanned for an embedded data-URI. -/
def contentStringRule (message : JsValue) : Option JsValue :=
  match jsGetOpt message "content" with
  | JsValue.str s => (matchDataUri s).map JsValue.str
  | _ => none

/-- Modelled from the spec's extraction policy: the three rules applied in the
stated priority order, first match wins, any unmatched shape yielding none. -/
def extractSpec (data : JsValue) : Option JsValue :=
  (imagesRuleM (messageOf data)).orElse fun _ =>
    (contentArrayRule (messageOf data)).orElse fun _ =>
      contentStringRule (messageOf data)

theorem nullish_false_of_truthy {v : JsValue} (h : truthy v = true) : nullish v = false := by
  cases v <;> simp_all [truthy, nullish]

theorem base_nonnullish_of_truthy_opt {v : JsValue} {f : String}
    (h : truthy (jsGetOpt v f) = true) : nullish v = false := by
  by_cases hn : nullish v = true
  · unfold jsGetOpt at h
    rw [if_pos hn] at h
    simp [truthy] at h
  · simpa using hn

theorem base_nonnullish_of_nonnullish_opt {v : JsValue} {f : String}
    (h : nullish (jsGetOpt v f) = false) : nullish v = false := by
  by_cases hn : nullish v = true
  · unfold jsGetOpt at h
    rw [if_pos hn] at h
    simp [nullish] at h
  · simpa using hn

theorem jsGetOpt_eq_get {v : JsValue} (f : String) (h : nullish v = false) :
    jsGetOpt v f = jsGet v f := by
  simp [jsGetOpt, h]

theorem jsGetE_ok {v : JsValue} (f : String) (h : nullish v = false) :
    jsGetE v f = Except.ok (jsGet v f) := by
  simp [jsGetE, h]

theorem jsIndexE_ok {v : JsValue} (i : Nat) (h : nullish v = false) :
    jsIndexE v i = Except.ok (jsIndex v i) := by
  simp [jsIndexE, h]

theorem isStr_ne {v : JsValue} {s t : String} (h : isStr v s = true) (hst : s ≠ t) :
    isStr v t = false := by
  cases v <;> simp_all [isStr]

theorem imagesPartE_ok (message : JsValue) :
    imagesPartE message = Except.ok (imagesRuleM message) := by
  unfold imagesPartE imagesRuleM
  by_cases h1 : truthy (jsGetOpt message "images") = true
  · have hm : nullish message = false := base_nonnullish_of_truthy_opt h1
    rw [jsGetOpt_eq_get "images" hm] at h1 ⊢
    have hmi : nullish (jsGet message "images") = false := nullish_false_of_truthy h1
    simp only [jsGetE_ok "images" hm, jsGetE_ok "length" hmi, jsIndexE_ok 0 hmi, h1,
      Bool.true_and, if_true]
    by_cases h2 : jsGtZero (jsGet (jsGet message "images") "length") = true
    · simp only [h2, if_true]
      by_cases h3 : truthy
          (jsGetOpt (jsGetOpt (jsIndex (jsGet message "images") 0) "image_url") "url") = true
      · have hiu : nullish (jsGetOpt (jsIndex (jsGet message "images") 0) "image_url") = false :=
          base_nonnullish_of_truthy_opt h3
        have himg : nullish (jsIndex (jsGet message "images") 0) = false :=
          base_nonnullish_of_nonnullish_opt hiu
        rw [jsGetOpt_eq_get "image_url" himg] at h3 hiu ⊢
        simp only [jsGetE_ok "image_url" himg, jsGetE_ok "url" hiu, h3, if_true]
      · simp only [if_neg h3]
        by_cases h4 : truthy (jsGetOpt (jsIndex (jsGet message "images") 0) "url") = true
        · have himg : nullish (jsIndex (jsGet message "images") 0) = false :=
            base_nonnullish_of_truthy_opt h4
          simp only [jsGetE_ok "url" himg, h4, if_true]
        · simp only [if_neg h4]
    · simp [h2]
  · simp [h1]

theorem scanItemsTail3E_ok (item : JsValue) (rest : List JsValue)
    (hnn : nullish item = false)
    (ih : scanItemsE rest = Except.ok (scanItems rest)) :
    scanItemsTail3E item rest =
      Except.ok (match jsGet item "text" with
        | JsValue.str s =>
          match matchDataUri s with
          | some m => some (JsValue.str m)
          | none => scanItems rest
        | _ => scanItems rest) := by
  rw [scanItemsTail3E]
  simp only [jsGetE_ok "text" hnn]
  cases jsGet item "text"
  case str s => rcases h : matchDataUri s with _ | m <;> simp [h, ih]
  all_goals simp [ih]

theorem scanItemsTail2E_ok (ty item : JsValue) (rest : List JsValue)
    (hnn : nullish item = false) (hty : ty = jsGet item "type")
    (ih : scanItemsE rest = Except.ok (scanItems rest)) :
    scanItemsTail2E ty item rest =
      Except.ok
        (if isStr (jsGet item "type") "output_image" && truthy (jsGet item "image_url") then
          some (jsGet item "image_url")
        else
          match jsGet item "text" with
          | JsValue.str s =>
            match matchDataUri s with
            | some m => some (JsValue.str m)
            | none => scanItems rest
          | _ => scanItems rest) := by
  subst hty
  rw [scanItemsTail2E]
  by_cases hty3 : isStr (jsGet item "type") "output_image" = true
  · simp only [hty3, if_true, jsGetE_ok "image_url" hnn, Bool.true_and]
    by_cases hiu : truthy (jsGet item "image_url") = true
    · simp only [hiu, if_true]
    · simp only [if_neg hiu]
      exact scanItemsTail3E_ok item rest hnn ih
  · rw [Bool.not_eq_true] at hty3
    simp only [hty3, Bool.false_and, Bool.false_eq_true, if_false]
    exact scanItemsTail3E_ok item rest hnn ih

theorem scanItemsTailE_ok (ty item : JsValue) (rest : List JsValue)
    (hnn : nullish item = false) (hty : ty = jsGet item "type")
    (ih : scanItemsE rest = Except.ok (scanItems rest)) :
    scanItemsTailE ty item rest =
      Except.ok
        (if isStr (jsGet item "type") "image_url" &&
            truthy (jsGetOpt (jsGet item "image_url") "url") then
          some (jsGet (jsGet item "image_url") "url")
        else if isStr (jsGet item "type") "output_image" && truthy (jsGet item "image_url") then
          some (jsGet item "image_url")
        else
          match jsGet item "text" with
          | JsValue.str s =>
            match matchDataUri s with
            | some m => some (JsValue.str m)
            | none => scanItems rest
          | _ => scanItems rest) := by
  subst hty
  rw [scanItemsTailE]
  by_cases hty2 : isStr (jsGet item "type") "image_url" = true
  · simp only [hty2, if_true, jsGetE_ok "image_url" hnn, Bool.true_and]
    by_cases hu : truthy (jsGetOpt (jsGet item "image_url") "url") = true
    · have hiu : nullish (jsGet item "image_url") = false := base_nonnullish_of_truthy_opt hu
      simp only [jsGetE_ok "url" hiu, hu, if_true]
    · simp only [if_neg hu]
      exact scanItemsTail2E_ok _ item rest hnn rfl ih
  · rw [Bool.not_eq_true] at hty2
    simp only [hty2, Bool.false_and, Bool.false_eq_true, if_false]
    exact scanItemsTail2E_ok _ item rest hnn rfl ih

theorem scanItemsE_ok (items : List JsValue) :
    scanItemsE items = Except.ok (scanItems items) := by
  induction items with
  | nil => simp [scanItemsE, scanItems]
  | cons item rest ih =>
    rw [scanItemsE, scanItems]
    by_cases ht : truthy item = true
    · have hnn : nullish item = false := nullish_false_of_truthy ht
      simp only [ht, if_true, jsGetE_ok "type" hnn]
      by_cases hty1 : isStr (jsGet item "type") "image" = true
      · simp only [hty1, if_true, Bool.true_and, jsGetE_ok "data" hnn]
        by_cases hd : truthy (jsGet item "data") = true
        · simp only [hd, if_true]
        · simp only [if_neg hd]
          exact scanItemsTailE_ok _ item rest hnn rfl ih
      · rw [Bool.not_eq_true] at hty1
        simp only [hty1, Bool.false_and, Bool.false_eq_true, if_false]
        exact scanItemsTailE_ok _ item rest hnn rfl ih
    · rw [Bool.not_eq_true] at ht
      simp only [ht, Bool.false_eq_true, if_false]
      exact ih

theorem contentPartE_ok (message : JsValue) :
    contentPartE message =
      Except.ok ((contentArrayRule message).orElse fun _ => contentStringRule message) := by
  unfold contentPartE contentArrayRule contentStringRule
  by_cases hc : truthy (jsGetOpt message "content") = true
  · rw [if_pos hc]
    rcases hch : jsGetOpt message "content" with _ | _ | b | n | ⟨m, e⟩ | s | items | fields
    · simp [Option.orElse]
    · simp [Option.orElse]
    · simp [Option.orElse]
    · simp [Option.orElse]
    · simp [Option.orElse]
    · simp [Option.orElse]
    · simp only [scanItemsE_ok]
      rcases h : scanItems items with _ | u <;> simp [h, Option.orElse]
    · simp [Option.orElse]
  · rw [if_neg hc]
    rw [Bool.not_eq_true] at hc
    rcases hch : jsGetOpt message "content" with _ | _ | b | n | ⟨m, e⟩ | s | items | fields
    · simp [Option.orElse]
    · simp [Option.orElse]
    · simp [Option.orElse]
    · simp [Option.orElse]
    · simp [Option.orElse]
    · rw [hch] at hc
      simp [truthy] at hc
      subst hc
      simp [Option.orElse, matchDataUri, uriScan]
    · rw [hch] at hc
      simp [truthy] at hc
    · rw [hch] at hc
      simp [truthy] at hc

theorem extract_normalizes (data : JsValue) :
    extractImageFromResponse data = Except.ok (extractSpec data) := by
  unfold extractImageFromResponse extractSpec
  rw [imagesPartE_ok]
  cases imagesRuleM (messageOf data)
  case some u => simp [Option.orElse]
  case none =>
    rw [contentPartE_ok]
    simp [Option.orElse]

/-- The observable outcome of one upstream fetch: a thrown transport error
(also covering an unparseable JSON body), a non-2xx response, or a 2xx
response with a parsed JSON body. -/
inductive UpstreamOutcome : Type where
  | transportError : UpstreamOutcome
  | httpFailure : Nat → UpstreamOutcome
  | httpSuccess : JsValue → UpstreamOutcome

/-- The sequential model-fallback loop shared by detectTextInImage
(server.js lines 414-471) and the edit-image / replace-text handlers: try each
candidate in order, count one upstream call per attempted candidate, stop at
the first candidate whose 2xx body yields an extractable payload; soft
failures (transport error, non-2xx, unextractable body) advance to the next
candidate. Returns the payload with the winning model, plus the call count. -/
def runLoop {α : Type} (extract : JsValue → Option α) (beh : Nat → UpstreamOutcome) :
    List String → Option (α × String) × Nat
  | [] => (none, 0)
  | model :: rest =>
    match beh 0 with
    | UpstreamOutcome.httpSuccess body =>
      match extract body with
      | some payload => (some (payload, model), 1)
      | none =>
        ((runLoop extract (fun n => beh (n + 1)) rest).1,
         (runLoop extract (fun n => beh (n + 1)) rest).2 + 1)
    | UpstreamOutcome.transportError =>
      ((runLoop extract (fun n => beh (n + 1)) rest).1,
       (runLoop extract (fun n => beh (n + 1)) rest).2 + 1)
    | UpstreamOutcome.httpFailure _ =>
      ((runLoop extract (fun n => beh (n + 1)) rest).1,
       (runLoop extract (fun n => beh (n + 1)) rest).2 + 1)

/-- The hardcoded candidate list of detectTextInImage (server.js lines 387-397). -/
def detectModels : List String :=
  ["google/gemini-2.5-flash",
   "anthropic/claude-3.5-sonnet",
   "openai/gpt-4o",
   "google/gemini-flash-1.5",
   "openai/gpt-4o-mini",
   "anthropic/claude-3.5-haiku",
   "google/gemini-2.0-flash-001",
   "meta-llama/llama-3.2-90b-vision-instruct",
   "qwen/qwen-2-vl-7b-instruct"]

/-- One content fragment's contribution to the text blob:
typeof c?.text === 'string' ? c.text : '' (server.js line 446). -/
def textFragment (c : JsValue) : String :=
  match jsGetOpt c "text" with
  | JsValue.str s => s
  | _ => ""

/-- The textBlob computation of detectTextInImage (server.js lines 445-447):
an array content maps its fragments' text fields and joins them with newlines,
a string content is used as is, anything else yields the empty string. -/
def detectTextBlob (content : JsValue) : String :=
  match content with
  | JsValue.arr items => String.intercalate "\n" (items.map textFragment)
  | JsValue.str s => s
  | _ => ""

/-- Index of the first open bracket in the text, if any. -/
def firstOpenIdx : List Char → Option Nat
  | [] => none
  | c :: rest => if c = '[' then some 0 else (firstOpenIdx rest).map (· + 1)

/-- Index of the last close bracket in the text, if any. -/
def lastCloseIdx : List Char → Option Nat
  | [] => none
  | c :: rest =>
    match lastCloseIdx rest with
    | some j => some (j + 1)
    | none => if c = ']' then some 0 else none

/-- Operational model of textBlob.match(the bracket regex) (server.js line
448): the engine advances the start position until it sits on an open
bracket; the greedy dot-all interior then backtracks from the end of the
text, so the match runs to the last close bracket of the whole remainder. -/
def regexScan : List Char → Option (List Char)
  | [] => none
  | c :: rest =>
    match if c = '[' then (lastCloseIdx rest).map (fun j => c :: rest.take (j + 1)) else none with
    | some m => some m
    | none => regexScan rest

/-- The slice extracted by detectTextInImage from the text blob before
JSON.parse: the greedy regex match of the blob. -/
def detectJsonSlice (content : JsValue) : Option (List Char) :=
  regexScan (detectTextBlob content).data

/-- Declarative description of the greedy regex match: the substring from the
first open bracket to the last close bracket, when the former precedes the
latter. -/
def firstToLastSlice (cs : List Char) : Option (List Char) :=
  match firstOpenIdx cs, lastCloseIdx cs with
  | some i, some j => if i < j then some ((cs.drop i).take (j - i + 1)) else none
  | _, _ => none

/-- Modelled from the spec: the scan of the concatenation for a JSON array
literal delimited by the first open bracket and its matching close bracket,
tracked with a nesting depth counter. -/
def matchingDepth : List Char → Nat → List Char → Option (List Char)
  | [], _, _ => none
  | c :: rest, depth, acc =>
    if c = '[' then matchingDepth rest (depth + 1) (c :: acc)
    else if c = ']' then
      if depth = 1 then some ((c :: acc).reverse)
      else matchingDepth rest (depth - 1) (c :: acc)
    else matchingDepth rest depth (c :: acc)

/-- Modelled from the spec: the JSON array literal delimited by the first
open bracket and its matching close bracket. -/
def matchingBracketSlice (cs : List Char) : Option (List Char) :=
  matchingDepth (cs.dropWhile (fun c => !(c = '['))) 0 []

/-- The JSON whitespace characters: space, tab, line feed, carriage return. -/
def isJsonWs (c : Char) : Bool :=
  c == ' ' || c == Char.ofNat 9 || c == Char.ofNat 10 || c == Char.ofNat 13

/-- Skip JSON whitespace. -/
def skipWs (cs : List Char) : List Char := cs.dropWhile isJsonWs

/-- Decimal digit test, named for use as a scanner predicate. -/
def isDigitChar (c : Char) : Bool := c.isDigit

/-- The natural number denoted by a list of decimal digits. -/
def digitsToNat (ds : List Char) : Nat :=
  ds.foldl (fun a c => a * 10 + (c.toNat - 48)) 0

/-- The value of one hexadecimal digit, if the character is one. -/
def hexVal (c : Char) : Option Nat :=
  if c.isDigit then some (c.toNat - 48)
  else if 'a' ≤ c && c ≤ 'f' then some (c.toNat - 87)
  else if 'A' ≤ c && c ≤ 'F' then some (c.toNat - 55)
  else none

/-- The character denoted by a one-character JSON string escape. -/
def escChar (c : Char) : Option Char :=
  if c = Char.ofNat 34 then some (Char.ofNat 34)
  else if c = Char.ofNat 92 then some (Char.ofNat 92)
  else if c = '/' then some '/'
  else if c = 'b' then some (Char.ofNat 8)
  else if c = 'f' then some (Char.ofNat 12)
  else if c = 'n' then some (Char.ofNat 10)
  else if c = 'r' then some (Char.ofNat 13)
  else if c = 't' then some (Char.ofNat 9)
  else none

/-- JSON string body after the opening quote: plain characters above the
control range, the one-character escapes, and four-hex-digit escapes (each
escape denotes its code unit; surrogate pairs are not recombined). Returns the
decoded content and the remainder after the closing quote. -/
def parseStringBody : List Char → Option (List Char × List Char)
  | [] => none
  | c :: rest =>
    if c = Char.ofNat 34 then some ([], rest)
    else if c = Char.ofNat 92 then
      match rest with
      | [] => none
      | e :: rest2 =>
        if e = 'u' then
          match rest2 with
          | h1 :: h2 :: h3 :: h4 :: rest3 =>
            match hexVal h1, hexVal h2, hexVal h3, hexVal h4, parseStringBody rest3 with
            | some a, some b, some c2, some d, some (s, r2) =>
              some (Char.ofNat (((a * 16 + b) * 16 + c2) * 16 + d) :: s, r2)
            | _, _, _, _, _ => none
          | _ => none
        else
          match escChar e, parseStringBody rest2 with
          | some c2, some (s, r2) => some (c2 :: s, r2)
          | _, _ => none
    else if c.toNat < 32 then none
    else
      match parseStringBody rest with
      | some (s, r2) => some (c :: s, r2)
      | none => none

/-- Build the value of a parsed JSON number: a pure integer form yields num,
any fraction or exponent yields the exact decimal mantissa and exponent. -/
def mkJsonNum (neg : Bool) (intD fracD : List Char) (hasExp expNeg : Bool)
    (expD : List Char) : JsValue :=
  let m : Int := Int.ofNat (digitsToNat (intD ++ fracD))
  let m := if neg then -m else m
  if fracD.isEmpty && !hasExp then JsValue.num m
  else
    let e : Int := Int.ofNat (digitsToNat expD)
    let e := if expNeg then -e else e
    JsValue.numf m (e - Int.ofNat fracD.length)

/-- The digits of a JSON exponent part after the e, with its optional sign. -/
def parseExpDigits (neg : Bool) (intD fracD : List Char) (cs : List Char) :
    Option (JsValue × List Char) :=
  let p := match cs with
    | '+' :: t => (false, t)
    | '-' :: t => (true, t)
    | t => (false, t)
  let ds := p.2.takeWhile isDigitChar
  if ds.isEmpty then none
  else some (mkJsonNum neg intD fracD true p.1 ds, p.2.dropWhile isDigitChar)

/-- The optional exponent part of a JSON number. -/
def parseExpTail (neg : Bool) (intD fracD : List Char) (cs : List Char) :
    Option (JsValue × List Char) :=
  match cs with
  | 'e' :: rest => parseExpDigits neg intD fracD rest
  | 'E' :: rest => parseExpDigits neg intD fracD rest
  | _ => some (mkJsonNum neg intD fracD false false [], cs)

/-- A JSON number: optional minus, an integer part without leading zeros, an
optional fraction, an optional exponent. -/
def parseNumber (cs : List Char) : Option (JsValue × List Char) :=
  let p := match cs with
    | '-' :: t => (true, t)
    | t => (false, t)
  let intD := p.2.takeWhile isDigitChar
  if intD.isEmpty then none
  else if intD.length > 1 && intD.head? = some '0' then none
  else
    match p.2.dropWhile isDigitChar with
    | '.' :: cs3 =>
      let fracD := cs3.takeWhile isDigitChar
      if fracD.isEmpty then none
      else parseExpTail p.1 intD fracD (cs3.dropWhile isDigitChar)
    | cs2 => parseExpTail p.1 intD [] cs2

mutual

/-- Recursive-descent JSON value parser (literals, strings, numbers, arrays,
objects), fuelled: every recursive call spends one unit of fuel, and between
any two units at least one input character is consumed, so fuel twice the
input length plus two (as supplied by jsonParse) never runs out. -/
def parseValue : Nat → List Char → Option (JsValue × List Char)
  | 0, _ => none
  | Nat.succ fuel, cs =>
    match skipWs cs with
    | 't' :: 'r' :: 'u' :: 'e' :: rest => some (JsValue.bool true, rest)
    | 'f' :: 'a' :: 'l' :: 's' :: 'e' :: rest => some (JsValue.bool false, rest)
    | 'n' :: 'u' :: 'l' :: 'l' :: rest => some (JsValue.null, rest)
    | '[' :: rest =>
      (match skipWs rest with
      | ']' :: rest2 => some (JsValue.arr [], rest2)
      | cs2 =>
        match parseElements fuel cs2 with
        | some (items, rest2) => some (JsValue.arr items, rest2)
        | none => none)
    | '{' :: rest =>
      (match skipWs rest with
      | '}' :: rest2 => some (JsValue.obj [], rest2)
      | cs2 =>
        match parseMembers fuel cs2 with
        | some (fields, rest2) => some (JsValue.obj fields, rest2)
        | none => none)
    | c :: rest =>
      if c = Char.ofNat 34 then
        match parseStringBody rest with
        | some (content, rest2) => some (JsValue.str (String.mk content), rest2)
        | none => none
      else parseNumber (c :: rest)
    | [] => none

/-- The comma-separated elements of a non-empty JSON array, up to and
including the closing bracket. -/
def parseElements : Nat → List Char → Option (List JsValue × List Char)
  | 0, _ => none
  | Nat.succ fuel, cs =>
    match parseValue fuel cs with
    | none => none
    | some (v, rest) =>
      match skipWs rest with
      | ',' :: rest2 =>
        (match parseElements fuel rest2 with
        | some (vs, rest3) => some (v :: vs, rest3)
        | none => none)
      | ']' :: rest2 => some ([v], rest2)
      | _ => none

/-- The comma-separated members of a non-empty JSON object, up to and
including the closing brace. -/
def parseMembers : Nat → List Char → Option (List (String × JsValue) × List Char)
  | 0, _ => none
  | Nat.succ fuel, cs =>
    match skipWs cs with
    | c :: rest =>
      if c = Char.ofNat 34 then
        match parseStringBody rest with
        | none => none
        | some (key, rest2) =>
          match skipWs rest2 with
          | ':' :: rest3 =>
            (match parseValue fuel rest3 with
            | none => none
            | some (v, rest4) =>
              match skipWs rest4 with
              | ',' :: rest5 =>
                (match parseMembers fuel rest5 with
                | some (fields, rest6) => some ((String.mk key, v) :: fields, rest6)
                | none => none)
              | '}' :: rest5 => some ([(String.mk key, v)], rest5)
              | _ => none)
          | _ => none
      else none
    | [] => none

end

/-- JSON.parse on a character list: one value, with nothing but whitespace
allowed after it; none models a thrown SyntaxError. -/
def jsonParse (cs : List Char) : Option JsValue :=
  match parseValue (2 * cs.length + 2) cs with
  | some (v, rest) => if (skipWs rest).isEmpty then some v else none
  | none => none

/-- The extraction step of one detect-text attempt (server.js lines 443-465):
the message content's text blob is sliced by the greedy bracket regex; the
slice must then survive JSON.parse — a parse failure is thrown, caught, and
treated as a soft failure — and the per-item mapping of server.js lines
451-464 over the parsed array (which copies each item's fields into a new
record) throws, again a caught soft failure, exactly when an item is nullish
(item.text on null); property reads on any other value cannot throw. The
parsed items are the payload (the handler reply does not expose the decorated
detectedTexts, so the field-copying itself is not observable). A slice always
starts with an open bracket, so a parsed slice is an array; the non-array arm
mirrors parsed.map throwing on a non-array and is unreachable. -/
def detectExtract (data : JsValue) : Option (List JsValue) :=
  match detectJsonSlice (jsGetOpt (messageOf data) "content") with
  | none => none
  | some slice =>
    match jsonParse slice with
    | none => none
    | some (JsValue.arr items) =>
      if items.all (fun item => !nullish item) then some items else none
    | some _ => none

/-- JavaScript truthiness of an optional string (absent or empty is falsy). -/
def truthyStr : Option String → Bool
  | some s => s != ""
  | none => false

/-- JavaScript a || b falling back to a default, for string-or-absent values. -/
def jsOrStr (v : Option String) (d : String) : String :=
  match v with
  | some s => if s = "" then d else s
  | none => d

/-- getOpenRouterKey (server.js lines 41-45):
header x-openrouter-key, else body apiKey, else env OPENROUTER_API_KEY, else ''. -/
def getOpenRouterKey (headerKey bodyKey envKey : Option String) : String :=
  jsOrStr headerKey (jsOrStr bodyKey (jsOrStr envKey ""))

/-- The Authorization header sent on every upstream call: Bearer plus the key. -/
def authorizationHeader (apiKey : String) : String :=
  "Bearer " ++ apiKey

/-- The observable pieces of a handler's JSON reply. -/
structure ApiReply : Type where
  status : Nat
  error : Option String
  code : Option String
  sourceModel : Option String
deriving DecidableEq

/-- The detect-text handler (server.js lines 82-105): 400 on a missing image,
400 with the MISSING_API_KEY code when no credential resolves, otherwise the
fallback loop over detectModels, whose outcome is surfaced as 200 on success
and 502 with a generic message on exhaustion. The second component counts the
upstream calls made. -/
def detectTextEndpoint (imageDataUrl headerKey bodyKey envKey : Option String)
    (beh : Nat → UpstreamOutcome) : ApiReply × Nat :=
  if truthyStr imageDataUrl = false then
    (⟨400, some "Image data is required", none, none⟩, 0)
  else if getOpenRouterKey headerKey bodyKey envKey = "" then
    (⟨400, some "OpenRouter API key not configured", some "MISSING_API_KEY", none⟩, 0)
  else
    match runLoop detectExtract beh detectModels with
    | (some (_, model), n) => (⟨200, none, none, some model⟩, n)
    | (none, n) => (⟨502, some "All models failed to detect text", none, none⟩, n)

/-- The observable pieces of the convert-image reply. -/
structure ConvertReply : Type where
  status : Nat
  success : Bool
  convertedImage : Option String
  format : Option String
  error : Option String
deriving DecidableEq

/-- The convert-image handler (server.js lines 534-560): 400 on a missing
image; when the requested format equals the original one the image is returned
as is; otherwise the canvas import runs (its failure is the 500 path) and the
image is again returned unchanged with the requested format label. The quality
field is accepted but unused. -/
def convertImageEndpoint (imageDataUrl format originalFormat : Option String)
    (quality : JsValue) (canvasOk : Bool) : ConvertReply :=
  if truthyStr imageDataUrl = false then
    ⟨400, false, none, none, some "Image data is required"⟩
  else if format = originalFormat then
    ⟨200, true, imageDataUrl, originalFormat, none⟩
  else if canvasOk then
    ⟨200, true, imageDataUrl, format, none⟩
  else
    ⟨500, false, none, none, some "Image conversion failed"⟩

/-- One batch job's fields used by the handler (server.js lines 494-510). -/
structure BatchJob : Type where
  name : Option String

/-- The abstract outcome of detectTextInImage for one job. -/
structure DetectOutcome : Type where
  success : Bool
deriving DecidableEq

/-- One entry of the batch results list. -/
structure BatchEntry : Type where
  index : Nat
  success : Bool
  data : Option DetectOutcome
  errMsg : Option String
  imageName : String
deriving DecidableEq

/-- imageData.name || ('image-' plus the absolute index). -/
def jobImageName (j : BatchJob) (i : Nat) : String :=
  jsOrStr j.name ("image-" ++ toString i)

/-- The per-job closure of the batch map (server.js lines 494-511): a normal
result is recorded with its own success flag, a thrown exception is caught
individually and recorded as a failure entry carrying the message. -/
def runBatchJob (beh : Nat → Except String DetectOutcome) (i : Nat) (j : BatchJob) : BatchEntry :=
  match beh i with
  | Except.ok r => ⟨i, r.success, some r, none, jobImageName j i⟩
  | Except.error m => ⟨i, false, none, some m, jobImageName j i⟩

/-- The slicing of the loop for (let i = 0; i < images.length; i += batchSize)
with batchSize = 3 (server.js lines 490-493). -/
def chunk3 : List α → List (List α)
  | [] => []
  | [a] => [[a]]
  | [a, b] => [[a, b]]
  | a :: b :: c :: rest => [a, b, c] :: chunk3 rest

/-- The group sizes produced by the batch slicing on a list of given length. -/
def chunkSizes : Nat → List Nat
  | 0 => []
  | n + 3 => 3 :: chunkSizes n
  | n => [n]

/-- The batch-detect-text runner (server.js lines 489-515): jobs are
enumerated with absolute indices, partitioned into consecutive groups of at
most three, each group is awaited in full (Promise.all preserves the group's
order) and the group results are appended in order. -/
def batchRun (beh : Nat → Except String DetectOutcome) (jobs : List BatchJob) :
    List BatchEntry :=
  ((chunk3 jobs.enum).map (fun grp => grp.map (fun p => runBatchJob beh p.1 p.2))).flatten

theorem runLoop_exhausts {α : Type} (extract : JsValue → Option α)
    (beh : Nat → UpstreamOutcome) (candidates : List String)
    (hall : ∀ j, j < candidates.length →
      ∀ body, beh j = UpstreamOutcome.httpSuccess body → extract body = none) :
    runLoop extract beh candidates = (none, candidates.length) := by
  induction candidates generalizing beh with
  | nil => rfl
  | cons m rest ih =>
    have hrec := ih (fun n => beh (n + 1))
      (fun j hj body hb => hall (j + 1) (Nat.succ_lt_succ hj) body hb)
    cases hb : beh 0 with
    | transportError =>
      rw [runLoop, hb]
      simp [hrec]
    | httpFailure s =>
      rw [runLoop, hb]
      simp [hrec]
    | httpSuccess body =>
      have hx := hall 0 (Nat.succ_pos rest.length) body hb
      rw [runLoop, hb]
      simp [hx, hrec]

/-- C1: when candidates 0..k-1 each fail with a transport error or a non-2xx
status and candidate k returns a 2xx body with an extractable payload, the
fallback loop returns that payload with sourceModel candidates[k] after making
exactly k+1 upstream calls (so a first-candidate success makes one call and
the second candidate is never called). -/
theorem fallback_first_success {α : Type} (extract : JsValue → Option α)
    (beh : Nat → UpstreamOutcome) (candidates : List String) (k : Nat)
    (hk : k < candidates.length)
    (hfail : ∀ j, j < k →
      beh j = UpstreamOutcome.transportError ∨ ∃ s, beh j = UpstreamOutcome.httpFailure s)
    (body : JsValue) (payload : α)
    (hsucc : beh k = UpstreamOutcome.httpSuccess body)
    (hex : extract body = some payload) :
    runLoop extract beh candidates = (some (payload, candidates[k]), k + 1) := by
  induction candidates generalizing beh k with
  | nil => simp at hk
  | cons m rest ih =>
    cases k with
    | zero =>
      rw [runLoop, hsucc]
      simp [hex]
    | succ k' =>
      have hk' : k' < rest.length := Nat.lt_of_succ_lt_succ hk
      have hrec := ih (fun n => beh (n + 1)) k' hk'
        (fun j hj => hfail (j + 1) (Nat.succ_lt_succ hj)) hsucc
      rcases hfail 0 (Nat.succ_pos k') with h0 | ⟨s, h0⟩
      · rw [runLoop, h0]
        simp [hrec]
      · rw [runLoop, h0]
        simp [hrec]

def behFailThenOk : Nat → UpstreamOutcome :=
  fun n => if n = 0 then UpstreamOutcome.httpFailure 500 else UpstreamOutcome.httpSuccess JsValue.null

def extractConst7 : JsValue → Option Nat :=
  fun _ => some 7

/-- C1 witness: two candidates, the first failing with a 500 and the second
succeeding, give the second candidate's payload after exactly two calls. -/
theorem fallback_first_success_witness :
    runLoop extractConst7 behFailThenOk ["model-a", "model-b"] = (some (7, "model-b"), 2) := by
  have h := fallback_first_success extractConst7 behFailThenOk ["model-a", "model-b"] 1
    (by decide)
    (fun j hj => by
      have hj0 : j = 0 := Nat.lt_one_iff.mp hj
      subst hj0
      exact Or.inr ⟨500, rfl⟩)
    JsValue.null 7 rfl rfl
  simpa using h

/-- C2: when every candidate yields a transport error, a non-2xx status, or a
2xx body with no extractable payload, the loop makes exactly one call per
candidate and returns a failure; the detect-text handler surfaces that single
failure as a 502 with the generic all-models-failed message. -/
theorem exhaustion_uniform_502 {α : Type} (extract : JsValue → Option α)
    (candidates : List String) (behG : Nat → UpstreamOutcome)
    (hall : ∀ j, j < candidates.length →
      ∀ body, behG j = UpstreamOutcome.httpSuccess body → extract body = none)
    (img : String) (himg : img ≠ "") (headerKey bodyKey envKey : Option String)
    (hkey : getOpenRouterKey headerKey bodyKey envKey ≠ "")
    (beh : Nat → UpstreamOutcome)
    (hdet : ∀ j, j < detectModels.length →
      ∀ body, beh j = UpstreamOutcome.httpSuccess body → detectExtract body = none) :
    runLoop extract behG candidates = (none, candidates.length) ∧
    detectTextEndpoint (some img) headerKey bodyKey envKey beh =
      (⟨502, some "All models failed to detect text", none, none⟩, detectModels.length) := by
  constructor
  · exact runLoop_exhausts extract behG candidates hall
  · unfold detectTextEndpoint
    have himg2 : truthyStr (some img) = true := by simp [truthyStr, himg]
    rw [if_neg (by simp [himg2]), if_neg hkey, runLoop_exhausts detectExtract beh detectModels hdet]

def behAllDown : Nat → UpstreamOutcome :=
  fun _ => UpstreamOutcome.transportError

def extractNever : JsValue → Option Nat :=
  fun _ => none

/-- A 2xx body whose content holds no bracketed text at all. -/
def respNoArray : JsValue :=
  JsValue.obj [("choices", JsValue.arr [JsValue.obj [("message",
    JsValue.obj [("content",
      JsValue.str "I cannot detect any text in this image.")])]])]

/-- A 2xx body whose blob has a bracket match that fails JSON.parse. -/
def respBadJson : JsValue :=
  JsValue.obj [("choices", JsValue.arr [JsValue.obj [("message",
    JsValue.obj [("content",
      JsValue.str "Here are the results: [x: 10, y: 20]")])]])]

/-- A 2xx body whose slice parses to an array holding null, so the per-item
mapping throws. -/
def respNullItem : JsValue :=
  JsValue.obj [("choices", JsValue.arr [JsValue.obj [("message",
    JsValue.obj [("content", JsValue.str "[null]")])]])]

/-- One 2xx body per soft-failure kind (no match, unparseable match, null
item), then non-2xx statuses for the remaining candidates. -/
def behSoftMix : Nat → UpstreamOutcome :=
  fun n =>
    if n = 0 then UpstreamOutcome.httpSuccess respNoArray
    else if n = 1 then UpstreamOutcome.httpSuccess respBadJson
    else if n = 2 then UpstreamOutcome.httpSuccess respNullItem
    else UpstreamOutcome.httpFailure 500

/-- C2 witness: two candidates both failing at transport level give a failure
after two calls; and with 2xx bodies carrying no bracket match, a
matched-but-unparseable slice, and a parsed array holding null — all soft
failures — plus non-2xx for the rest, the detect-text handler answers 502
with the generic message after one call per hardcoded model. -/
theorem exhaustion_uniform_502_witness :
    runLoop extractNever behAllDown ["model-a", "model-b"] = (none, 2) ∧
    detectTextEndpoint (some "img") none (some "key") none behSoftMix =
      (⟨502, some "All models failed to detect text", none, none⟩, 9) := by
  have hdet : ∀ j, j < detectModels.length →
      ∀ body, behSoftMix j = UpstreamOutcome.httpSuccess body → detectExtract body = none := by
    intro j hj body hb
    by_cases h0 : j = 0
    · rw [h0] at hb
      rw [show behSoftMix 0 = UpstreamOutcome.httpSuccess respNoArray from rfl] at hb
      injection hb with hbody
      rw [← hbody]
      rfl
    · by_cases h1 : j = 1
      · rw [h1] at hb
        rw [show behSoftMix 1 = UpstreamOutcome.httpSuccess respBadJson from rfl] at hb
        injection hb with hbody
        rw [← hbody]
        rfl
      · by_cases h2 : j = 2
        · rw [h2] at hb
          rw [show behSoftMix 2 = UpstreamOutcome.httpSuccess respNullItem from rfl] at hb
          injection hb with hbody
          rw [← hbody]
          rfl
        · rw [show behSoftMix j = UpstreamOutcome.httpFailure 500 from by
            simp [behSoftMix, h0, h1, h2]] at hb
          exact UpstreamOutcome.noConfusion hb
  have h := exhaustion_uniform_502 extractNever ["model-a", "model-b"] behAllDown
    (fun j hj body hb => UpstreamOutcome.noConfusion hb)
    "img" (by decide) none (some "key") none (by decide) behSoftMix hdet
  simpa using h

/-- C3 (amended): the response extractor is total and deterministic — every
JSON-shaped input yields ok of a payload value or of none (a returned null),
it never throws, and applying it twice to the same input yields the same
result both times. -/
theorem extract_total_idempotent (d : JsValue) :
    (∃ r : Option JsValue, extractImageFromResponse d = Except.ok r) ∧
    extractImageFromResponse d = extractImageFromResponse d :=
  ⟨⟨extractSpec d, extract_normalizes d⟩, rfl⟩

/-- A response whose content array carries an image entry with numeric data. -/
def respNumData : JsValue :=
  JsValue.obj [("choices", JsValue.arr [JsValue.obj [("message", JsValue.obj
    [("content", JsValue.arr
      [JsValue.obj [("type", JsValue.str "image"), ("data", JsValue.num 42)]])])]])]

/-- C3 counterexample: on a response whose image entry carries the number 42
as data, the extractor returns that number — a non-null payload that is not a
string, so the extractor does not always return a payload string or null. -/
theorem extract_payload_not_string :
    extractImageFromResponse respNumData = Except.ok (some (JsValue.num 42)) ∧
    ∀ s : String, JsValue.num 42 ≠ JsValue.str s :=
  ⟨(extract_normalizes respNumData).trans (by rfl), fun s h => JsValue.noConfusion h⟩

/-- C4: the extractor applies its rules in the stated priority order — the
dedicated images list first (first entry's URL), then the front-to-back scan
of a tagged content array (image data, image_url URL, output_image, or a text
fragment holding a data-URI), and finally the data-URI scan of a plain string
content — with the first match winning. -/
theorem extract_priority_order (d : JsValue) :
    extractImageFromResponse d =
      Except.ok ((imagesRuleM (messageOf d)).orElse fun _ =>
        (contentArrayRule (messageOf d)).orElse fun _ => contentStringRule (messageOf d)) :=
  extract_normalizes d

/-- C9: when the message's images list is truthy and non-empty but its first
entry carries neither an image_url.url nor a url, extraction does not return
null for the images rule — it falls through to the content-based rules applied
to the same response. -/
theorem images_fallthrough (d : JsValue)
    (hpresent : truthy (jsGetOpt (messageOf d) "images") = true)
    (hlen : jsGtZero (jsGet (jsGetOpt (messageOf d) "images") "length") = true)
    (hnoIU : truthy (jsGetOpt (jsGetOpt (jsIndex (jsGetOpt (messageOf d) "images") 0)
      "image_url") "url") = false)
    (hnoU : truthy (jsGetOpt (jsIndex (jsGetOpt (messageOf d) "images") 0) "url") = false) :
    extractImageFromResponse d =
      Except.ok ((contentArrayRule (messageOf d)).orElse fun _ =>
        contentStringRule (messageOf d)) := by
  have hnone : imagesRuleM (messageOf d) = none := by
    unfold imagesRuleM
    rw [if_pos (by rw [hpresent, hlen]; rfl), if_neg (by simp [hnoIU]), if_neg (by simp [hnoU])]
  have h := extract_normalizes d
  unfold extractSpec at h
  rw [hnone] at h
  simpa [Option.orElse] using h

/-- A response with a urlless first images entry and an image_url content. -/
def respFallthrough : JsValue :=
  JsValue.obj [("choices", JsValue.arr [JsValue.obj [("message", JsValue.obj
    [("images", JsValue.arr [JsValue.obj [("w", JsValue.num 1)]]),
     ("content", JsValue.arr
       [JsValue.obj [("type", JsValue.str "image_url"),
         ("image_url", JsValue.obj [("url", JsValue.str "http://x/y.png")])]])])]])]

/-- C9 witness: an images list whose first entry has no URL fields together
with an image_url content entry yields the content entry's URL. -/
theorem images_fallthrough_witness :
    extractImageFromResponse respFallthrough =
      Except.ok (some (JsValue.str "http://x/y.png")) :=
  (images_fallthrough respFallthrough rfl rfl rfl rfl).trans (by rfl)

theorem regexScan_none_of_noClose (cs : List Char) (h : lastCloseIdx cs = none) :
    regexScan cs = none := by
  induction cs with
  | nil => rfl
  | cons c rest ih =>
    rw [lastCloseIdx] at h
    rcases hr : lastCloseIdx rest with _ | j
    · rw [hr] at h
      rw [regexScan, hr]
      by_cases hc : c = '['
      · simp [hc, ih hr]
      · simp [hc, ih hr]
    · rw [hr] at h
      simp at h

theorem regexScan_eq_firstToLast (cs : List Char) : regexScan cs = firstToLastSlice cs := by
  induction cs with
  | nil => rfl
  | cons c rest ih =>
    by_cases hc : c = '['
    · subst hc
      rcases hr : lastCloseIdx rest with _ | j
      · rw [regexScan, hr]
        simp only [if_pos rfl, Option.map_none']
        rw [regexScan_none_of_noClose rest hr]
        unfold firstToLastSlice
        rw [firstOpenIdx, lastCloseIdx, hr]
        simp
      · rw [regexScan, hr]
        simp only [if_pos rfl, Option.map_some']
        unfold firstToLastSlice
        rw [firstOpenIdx, lastCloseIdx, hr]
        simp [List.take_succ_cons]
    · rw [regexScan]
      simp only [if_neg hc]
      rw [ih]
      unfold firstToLastSlice
      rw [firstOpenIdx]
      simp only [if_neg hc]
      rcases ho : firstOpenIdx rest with _ | i
      · simp
      · rcases hr : lastCloseIdx rest with _ | j
        · rw [lastCloseIdx, hr]
          by_cases hcc : c = ']'
          · simp [hcc]
          · simp [hcc]
        · rw [lastCloseIdx, hr]
          simp only [Option.map_some']
          by_cases hij : i < j
          · rw [if_pos hij, if_pos (Nat.succ_lt_succ hij)]
            simp [Nat.succ_sub_succ]
          · rw [if_neg hij, if_neg (fun hx => hij (Nat.lt_of_succ_lt_succ hx))]

/-- C5 (amended): for a content list of mixed text fragments, the detect-text
pipeline concatenates the fragments' text fields in order (joined by newlines,
non-string text contributing the empty string) and slices the concatenation
from its first open bracket to its last close bracket (the greedy regex
match), not to the matching close bracket. -/
theorem detect_blob_greedy_slice (items : List JsValue) :
    detectJsonSlice (JsValue.arr items) =
      firstToLastSlice (String.intercalate "\n" (items.map textFragment)).data := by
  unfold detectJsonSlice detectTextBlob
  exact regexScan_eq_firstToLast _

/-- A content list of two text fragments whose concatenation holds two
bracketed groups. -/
def mixedFragments : JsValue :=
  JsValue.arr [JsValue.obj [("text", JsValue.str "[1]")],
    JsValue.obj [("text", JsValue.str "a [2]")]]

/-- C5 counterexample: on fragments joining to a blob with two bracket groups,
the code's slice runs from the first open bracket to the LAST close bracket of
the concatenation, not to the close bracket matching the first open one, so
the claimed matching-bracket extraction disagrees with the code. -/
theorem detect_slice_not_matching_bracket :
    detectJsonSlice mixedFragments = some "[1]\na [2]".data ∧
    matchingBracketSlice (detectTextBlob mixedFragments).data = some "[1]".data ∧
    detectJsonSlice mixedFragments ≠
      matchingBracketSlice (detectTextBlob mixedFragments).data := by
  refine ⟨by rfl, by rfl, ?_⟩
  intro h
  rw [show detectJsonSlice mixedFragments = some "[1]\na [2]".data from by rfl,
    show matchingBracketSlice (detectTextBlob mixedFragments).data = some "[1]".data from by rfl]
      at h
  simp at h

/-- C6: credential resolution prefers the per-request header, then the body
field, then the environment default; with a truthy header present the header
value is selected, the output is independent of the body and environment
values, and the upstream Authorization header is Bearer plus that value. -/
theorem credential_precedence (hs : String) (hh : hs ≠ "")
    (bodyKey envKey bodyKey2 envKey2 : Option String)
    (bs : String) (hb : bs ≠ "") (es : String) (he : es ≠ "") :
    getOpenRouterKey (some hs) bodyKey envKey = hs ∧
    getOpenRouterKey (some hs) bodyKey envKey = getOpenRouterKey (some hs) bodyKey2 envKey2 ∧
    authorizationHeader (getOpenRouterKey (some hs) bodyKey envKey) = "Bearer " ++ hs ∧
    getOpenRouterKey none (some bs) envKey = bs ∧
    getOpenRouterKey none none (some es) = es := by
  refine ⟨?_, ?_, ?_, ?_, ?_⟩ <;>
    simp [getOpenRouterKey, jsOrStr, authorizationHeader, hh, hb, he]

/-- C6 witness: with all three sources present the header value wins and feeds
the Authorization header. -/
theorem credential_precedence_witness :
    getOpenRouterKey (some "header-key") (some "body-key") (some "env-key") = "header-key" ∧
    authorizationHeader (getOpenRouterKey (some "header-key") (some "body-key")
      (some "env-key")) = "Bearer header-key" := by
  have h := credential_precedence "header-key" (by decide) (some "body-key") (some "env-key")
    (some "other-body") (some "other-env") "body-key" (by decide) "env-key" (by decide)
  exact ⟨h.1, h.2.2.1.trans (by rfl)⟩

theorem jsOrStr_falsy {v : Option String} (h : truthyStr v = false) (d : String) :
    jsOrStr v d = d := by
  cases v with
  | none => rfl
  | some s =>
    simp [truthyStr] at h
    simp [jsOrStr, h]

/-- C7 (amended): for every request that carries the required image field but
where no credential resolves from any of the three sources, the handler
responds immediately with 400 and the distinguished MISSING_API_KEY code,
making zero upstream calls. -/
theorem missing_key_fast_fail (img : String) (himg : img ≠ "")
    (headerKey bodyKey envKey : Option String)
    (hh : truthyStr headerKey = false) (hb : truthyStr bodyKey = false)
    (he : truthyStr envKey = false) (beh : Nat → UpstreamOutcome) :
    detectTextEndpoint (some img) headerKey bodyKey envKey beh =
      (⟨400, some "OpenRouter API key not configured", some "MISSING_API_KEY", none⟩, 0) := by
  have hk : getOpenRouterKey headerKey bodyKey envKey = "" := by
    rw [getOpenRouterKey, jsOrStr_falsy hh, jsOrStr_falsy hb, jsOrStr_falsy he]
  unfold detectTextEndpoint
  rw [if_neg (by simp [truthyStr, himg]), if_pos hk]

def behNever : Nat → UpstreamOutcome :=
  fun _ => UpstreamOutcome.transportError

/-- C7 counterexample: a request with no image data and no credential from any
source is answered 400 without the MISSING_API_KEY code (the input check runs
first), so not every credential-less request carries the distinguished code. -/
theorem missing_key_not_universal :
    getOpenRouterKey none none none = "" ∧
    detectTextEndpoint none none none none behNever =
      (⟨400, some "Image data is required", none, none⟩, 0) ∧
    (none : Option String) ≠ some "MISSING_API_KEY" := by
  refine ⟨rfl, rfl, by simp⟩

def behMissingKey : Nat → UpstreamOutcome :=
  fun _ => UpstreamOutcome.httpSuccess JsValue.null

/-- C7 witness: a request with an image but an absent header, empty body field
and absent environment value gets the 400 MISSING_API_KEY reply and no
upstream call is made. -/
theorem missing_key_fast_fail_witness :
    detectTextEndpoint (some "data:image/png;base64,AAAA") none (some "") none behMissingKey =
      (⟨400, some "OpenRouter API key not configured", some "MISSING_API_KEY", none⟩, 0) :=
  missing_key_fast_fail "data:image/png;base64,AAAA" (by decide) none (some "") none
    rfl rfl rfl behMissingKey

theorem chunk3_flatten {α : Type} : ∀ l : List α, (chunk3 l).flatten = l
  | [] => rfl
  | [a] => rfl
  | [a, b] => rfl
  | a :: b :: c :: rest => by
    rw [chunk3]
    simp [chunk3_flatten rest]

theorem chunk3_map_flatten {α β : Type} (f : α → β) :
    ∀ l : List α, ((chunk3 l).map (List.map f)).flatten = l.map f
  | [] => rfl
  | [a] => rfl
  | [a, b] => rfl
  | a :: b :: c :: rest => by
    rw [chunk3]
    simp [chunk3_map_flatten f rest]

theorem chunk3_sizes {α : Type} : ∀ l : List α, (chunk3 l).map List.length = chunkSizes l.length
  | [] => rfl
  | [a] => rfl
  | [a, b] => rfl
  | a :: b :: c :: rest => by
    rw [chunk3]
    rw [show (a :: b :: c :: rest).length = rest.length + 3 from rfl]
    rw [chunkSizes]
    simp [chunk3_sizes rest]

theorem chunk3_bounded {α : Type} : ∀ l : List α, ∀ g ∈ chunk3 l, g.length ≤ 3
  | [] => by simp [chunk3]
  | [a] => by simp [chunk3]
  | [a, b] => by simp [chunk3]
  | a :: b :: c :: rest => by
    intro g hg
    rw [chunk3] at hg
    rcases List.mem_cons.mp hg with rfl | hg2
    · simp
    · exact chunk3_bounded rest g hg2

/-- C8: the batch runner partitions the enumerated job list into consecutive
groups of at most three (7 jobs giving groups of sizes 3, 3, 1), its output
equals the in-order per-job map — so result order matches input order and
each entry depends only on its own job's outcome — and a thrown job becomes a
failure entry for that job alone. -/
theorem batch_runner_behaviour (beh : Nat → Except String DetectOutcome)
    (jobs : List BatchJob) :
    batchRun beh jobs = jobs.enum.map (fun p => runBatchJob beh p.1 p.2) ∧
    (∀ g ∈ chunk3 jobs.enum, g.length ≤ 3) ∧
    (chunk3 jobs.enum).flatten = jobs.enum ∧
    (chunk3 jobs.enum).map List.length = chunkSizes jobs.length ∧
    (jobs.length = 7 → (chunk3 jobs.enum).map List.length = [3, 3, 1]) ∧
    (∀ i j m, beh i = Except.error m →
      runBatchJob beh i j = ⟨i, false, none, some m, jobImageName j i⟩) := by
  refine ⟨chunk3_map_flatten _ jobs.enum, chunk3_bounded jobs.enum,
    chunk3_flatten jobs.enum, ?_, ?_, ?_⟩
  · rw [chunk3_sizes, List.enum_length]
  · intro h7
    rw [chunk3_sizes, List.enum_length, h7]
    rfl
  · intro i j m hm
    simp [runBatchJob, hm]

def jobs7 : List BatchJob :=
  [⟨some "a"⟩, ⟨some "b"⟩, ⟨none⟩, ⟨none⟩, ⟨some "e"⟩, ⟨none⟩, ⟨some "g"⟩]

def behBoom : Nat → Except String DetectOutcome :=
  fun i => if i = 3 then Except.error "boom" else Except.ok ⟨true⟩

/-- C8 witness: seven jobs run in groups of sizes 3, 3, 1, the results equal
the in-order map, and the job whose stub throws becomes its own failure entry. -/
theorem batch_runner_behaviour_witness :
    (chunk3 jobs7.enum).map List.length = [3, 3, 1] ∧
    batchRun behBoom jobs7 = jobs7.enum.map (fun p => runBatchJob behBoom p.1 p.2) ∧
    runBatchJob behBoom 3 ⟨none⟩ = ⟨3, false, none, some "boom", "image-3"⟩ := by
  have h := batch_runner_behaviour behBoom jobs7
  exact ⟨h.2.2.2.2.1 rfl, h.1, (h.2.2.2.2.2 3 ⟨none⟩ "boom" rfl).trans (by rfl)⟩

/-- C10: every successful (status 200) reply of the convert-image endpoint
returns the input image data URL unchanged as convertedImage, for every
requested format, original format, quality, and canvas availability. -/
theorem convert_image_identity (imageDataUrl format originalFormat : Option String)
    (quality : JsValue) (canvasOk : Bool)
    (h : (convertImageEndpoint imageDataUrl format originalFormat quality canvasOk).status
      = 200) :
    (convertImageEndpoint imageDataUrl format originalFormat quality canvasOk).convertedImage
      = imageDataUrl := by
  unfold convertImageEndpoint at h ⊢
  by_cases h1 : truthyStr imageDataUrl = false
  · rw [if_pos h1] at h
    simp at h
  · rw [if_neg h1] at h ⊢
    by_cases h2 : format = originalFormat
    · rw [if_pos h2] at h ⊢
    · rw [if_neg h2] at h ⊢
      by_cases h3 : canvasOk = true
      · rw [if_pos h3] at h ⊢
      · rw [if_neg h3] at h
        simp at h

/-- C10 witness: a png-to-jpeg conversion request completes with status 200 and
returns the input data URL unchanged. -/
theorem convert_image_identity_witness :
    (convertImageEndpoint (some "data:image/png;base64,AAAA") (some "jpeg") (some "png")
      (JsValue.num 1) true).convertedImage = some "data:image/png;base64,AAAA" :=
  convert_image_identity (some "data:image/png;base64,AAAA") (some "jpeg") (some "png")
    (JsValue.num 1) true (by rfl)

end VisualFixer
